import Mathlib

/-!
Verification of the multi-provider LLM orchestration layer of this repository.

Shallow embedding of:
- `core/llm/tooling.py` — the `llm_tool` decorator (JSON-schema derivation) and
  the cache-based `ToolRegistry`;
- `core/tooling.py` — the older, append-based `ToolRegistry` used by `app.py`;
- `core/llm/tool_handling.py` — `prepare_tools_for_api` (with an explicit heap
  to model Python object aliasing and in-place mutation);
- `core/llm/responses_api.py` — `handle_responses_api`, the recursive
  tool-calling loop over the OpenAI Responses API;
- `core/llm/anthropic.py` — `handle_anthropic_api`, the recursive tool-calling
  loop over the Anthropic API (which has no depth limit, so it is embedded with
  an explicit fuel parameter, `outOfFuel` marking an execution that is still
  running after `fuel` provider calls);
- `core/llm.py` — the request-building part of
  `AsyncLLMClient._get_openai_response` (Responses path).

Provider network calls are modelled as oracles: functions from the call index
(and the request being sent) to the provider answer, with `Except` capturing a
raised API error.  Tool callables are likewise oracles returning `Except`
(`error` = the callable raised), and `json.loads` is an oracle
`String → Except String String` (`error` = JSONDecodeError).
-/

set_option autoImplicit false

namespace ChainlitBlank

/-! ## Generic helpers -/

/-- `startsAt needle hay`: `needle` is a prefix of `hay` (character lists). -/
def startsAt : List Char → List Char → Bool
  | [], _ => true
  | _ :: _, [] => false
  | n :: ns, h :: hs => n == h && startsAt ns hs

/-- `occursAt needle hay`: `needle` occurs somewhere inside `hay`. -/
def occursAt : List Char → List Char → Bool
  | ns, [] => startsAt ns []
  | ns, h :: hs => startsAt ns (h :: hs) || occursAt ns hs

/-- The Python `needle in hay` test on strings. -/
def strContains (hay needle : String) : Bool :=
  occursAt needle.toList hay.toList

/-- Python truthiness of an optional string (`None` and `""` are falsy). -/
def optTruthy : Option String → Bool
  | none => false
  | some s => s != ""

/-- Python dict lookup on an association list (insertion-ordered, unique keys). -/
def alGet {α : Type} (k : String) : List (String × α) → Option α
  | [] => none
  | p :: rest => if p.1 == k then some p.2 else alGet k rest

/-- Python dict assignment `d[k] = v`: overwrite in place (keeping the key's
position) or append a new entry, as CPython insertion-ordered dicts do. -/
def alSet {α : Type} (k : String) (v : α) : List (String × α) → List (String × α)
  | [] => [(k, v)]
  | p :: rest => if p.1 == k then (k, v) :: rest else p :: alSet k v rest

/-! ## Canonical data model (`core/llm/types.py`) -/

/-- The `LLMResponse` TypedDict (the optional `sources` field is never set by
the adapters under verification and is omitted). -/
structure LLMResponse where
  text : String
  input_tokens : Nat
  output_tokens : Nat
  response_id : Option String
deriving DecidableEq, Repr

/-- A chat message dict: `role`, `content`, and the `tool_call_id` key that
`handle_anthropic_api` adds to the tool-output messages it appends. -/
structure ChatMsg where
  role : String
  content : String
  tool_call_id : Option String := none
deriving DecidableEq, Repr

/-- `user_input : Union[str, List[Message]]`. -/
inductive ChatInput where
  | str (s : String)
  | list (msgs : List ChatMsg)
deriving DecidableEq, Repr

/-! ## Schema derivation: the `llm_tool` decorator
(`core/llm/tooling.py` lines 21-94; the copy in `core/tooling.py` lines 17-90
is character-for-character identical in its schema-building logic). -/

/-- The Python types appearing as parameter annotations (`TYPE_MAP` keys plus
anything unmapped). -/
inductive PyType where
  | str
  | int
  | float
  | bool
  | list
  | dict
  | other (n : String)
deriving DecidableEq, Repr

/-- `TYPE_MAP` from `core/llm/tooling.py`. -/
def typeMapGet : PyType → Option String
  | .str => some "string"
  | .int => some "integer"
  | .float => some "number"
  | .bool => some "boolean"
  | .list => some "array"
  | .dict => some "object"
  | .other _ => none

/-- A parameter annotation: its underlying type, and the first element of
`__metadata__` when the annotation is `Annotated[base, "description"]`. -/
structure PyAnn where
  base : PyType
  metadata : Option String
deriving DecidableEq, Repr

/-- One entry of `inspect.signature(func).parameters`. -/
structure PyParam where
  name : String
  ann : PyAnn
  hasDefault : Bool
deriving DecidableEq, Repr

/-- One value of the derived `properties` dict. -/
structure PropEntry where
  type : String
  description : Option String
deriving DecidableEq, Repr

/-- The derived `parameters` schema: the `properties` dict and the `required`
list (the constant `"type": "object"` key is implicit). -/
structure ParamsSchema where
  properties : List (String × PropEntry)
  required : List String
deriving DecidableEq, Repr

/-- One iteration of the `for name, param in signature.parameters.items()`
loop of `llm_tool`: a parameter with a metadata description gets that
description and is appended to `required` unconditionally; one without is
appended to `required` only when it has no default value. -/
def paramStep (acc : ParamsSchema) (p : PyParam) : ParamsSchema :=
  let ptype := (typeMapGet p.ann.base).getD "string"
  match p.ann.metadata with
  | some d =>
    { properties := acc.properties ++ [(p.name, ⟨ptype, some d⟩)],
      required := acc.required ++ [p.name] }
  | none =>
    { properties := acc.properties ++ [(p.name, ⟨ptype, none⟩)],
      required := if p.hasDefault then acc.required else acc.required ++ [p.name] }

/-- The full parameter loop of `llm_tool`. -/
def buildParamsSchema (ps : List PyParam) : ParamsSchema :=
  ps.foldl paramStep ⟨[], []⟩

/-- The `function` sub-dict of an OpenAI tool schema.  `nameField` models the
`"name"` key that `prepare_tools_for_api(..., 'completions')` later assigns
into this shared dict (absent when `llm_tool` builds it). -/
structure FnBody where
  nameField : Option String
  description : String
  parameters : ParamsSchema
deriving DecidableEq, Repr

/-- `func.openai_tool`: `{type, name, function: {description, parameters}}`. -/
structure OpenAIToolDict where
  type : String
  name : String
  function : FnBody
deriving DecidableEq, Repr

/-- `func.anthropic_tool`: `{name, description, input_schema}`. -/
structure AnthToolDict where
  name : String
  description : String
  input_schema : ParamsSchema
deriving DecidableEq, Repr

/-- `func.tool`: the generic schema `{name, description, parameters}`. -/
structure GenToolDict where
  name : String
  description : String
  parameters : ParamsSchema
deriving DecidableEq, Repr

/-- The attributes `llm_tool` attaches to a decorated function, as seen by the
registries through `hasattr`; `none` models a function that lacks the
attribute (e.g. one never passed through the decorator). -/
structure ToolFunc where
  openaiTool : Option OpenAIToolDict
  anthropicTool : Option AnthToolDict
  genTool : Option GenToolDict
deriving DecidableEq, Repr

/-- The inputs `llm_tool` inspects: `func.__name__`, `func.__doc__`, and the
declared parameter list. -/
structure PyFunc where
  name : String
  doc : Option String
  params : List PyParam
deriving DecidableEq, Repr

/-- `func.__doc__ or f"Function {func_name}"`. -/
def pyDocOr (f : PyFunc) : String :=
  match f.doc with
  | some d => if d != "" then d else "Function " ++ f.name
  | none => "Function " ++ f.name

/-- The `llm_tool` decorator: builds the parameter schema once and attaches
the three provider-specific schema dicts. -/
def llm_tool (f : PyFunc) : ToolFunc :=
  let parameters := buildParamsSchema f.params
  { openaiTool := some ⟨"function", f.name, ⟨none, pyDocOr f, parameters⟩⟩,
    anthropicTool := some ⟨f.name, pyDocOr f, parameters⟩,
    genTool := some ⟨f.name, pyDocOr f, parameters⟩ }

/-! ## The cache-based registry (`core/llm/tooling.py`, class `ToolRegistry`) -/

/-- A schema as stored in a registry schema list (the Python lists are
heterogeneous: openai dicts, anthropic dicts and generic dicts side by side). -/
inductive ProviderSchema where
  | openai (s : OpenAIToolDict)
  | anthropic (s : AnthToolDict)
  | generic (s : GenToolDict)
deriving DecidableEq, Repr

/-- The branch body of `_build_schema_cache` for one registered function:
provider-specific schema when the attribute is present, else the generic
schema.  (The final fallback for a function with no `tool` attribute cannot
occur for registered functions, since `register` rejects them; a dummy generic
schema stands in for the `AttributeError` Python would raise.) -/
def schemaFor (provider : String) (f : ToolFunc) : ProviderSchema :=
  match provider == "openai", f.openaiTool with
  | true, some s => .openai s
  | _, _ =>
    match provider == "anthropic", f.anthropicTool with
    | true, some s => .anthropic s
    | _, _ =>
      match f.genTool with
      | some s => .generic s
      | none => .generic ⟨"", "", ⟨[], []⟩⟩

/-- `_build_schema_cache`: one schema appended per entry of `self._tools`. -/
def buildSchemaCache (tools : List (String × ToolFunc)) (provider : String) :
    List ProviderSchema :=
  tools.map (fun p => schemaFor provider p.2)

/-- State of the `core/llm/tooling.py` registry: `_tools`, `_schema_cache`,
`_cache_valid` (all insertion-ordered dicts). -/
structure Registry2 where
  tools : List (String × ToolFunc)
  schemaCache : List (String × List ProviderSchema)
  cacheValid : List (String × Bool)
deriving DecidableEq, Repr

/-- `ToolRegistry()` of `core/llm/tooling.py`. -/
def Registry2.empty : Registry2 := ⟨[], [], []⟩

/-- `register`: rejects a function without a `tool` attribute, otherwise
inserts/overwrites under `name` and sets every existing `_cache_valid` entry
to `False`. -/
def Registry2.register (r : Registry2) (name : String) (f : ToolFunc) :
    Except String Registry2 :=
  match f.genTool with
  | none => .error ("Function " ++ name ++ " does not have a 'tool' attribute")
  | some _ =>
    .ok { tools := alSet name f r.tools,
          schemaCache := r.schemaCache,
          cacheValid := r.cacheValid.map (fun p => (p.1, false)) }

/-- `unregister`: removes when present (invalidating every cache entry),
no-op otherwise. -/
def Registry2.unregister (r : Registry2) (name : String) : Registry2 :=
  if r.tools.any (fun p => p.1 == name) then
    { tools := r.tools.filter (fun p => !(p.1 == name)),
      schemaCache := r.schemaCache,
      cacheValid := r.cacheValid.map (fun p => (p.1, false)) }
  else r

/-- `has_tool`. -/
def Registry2.has_tool (r : Registry2) (name : String) : Bool :=
  r.tools.any (fun p => p.1 == name)

/-- `get_schemas`: initialise the cache slot for an unknown provider, rebuild
it when invalid, mark it valid, and return it (also returning the updated
registry state, since the Python method mutates `self`). -/
def Registry2.get_schemas (r : Registry2) (provider : String) :
    List ProviderSchema × Registry2 :=
  let r1 :=
    if (alGet provider r.schemaCache).isNone then
      { r with schemaCache := alSet provider [] r.schemaCache,
               cacheValid := alSet provider false r.cacheValid }
    else r
  let r2 :=
    if !((alGet provider r1.cacheValid).getD false) then
      { r1 with
        schemaCache := alSet provider (buildSchemaCache r1.tools provider) r1.schemaCache,
        cacheValid := alSet provider true r1.cacheValid }
    else r1
  ((alGet provider r2.schemaCache).getD [], r2)

/-- The cache coherence invariant of `Registry2`: every provider whose
`_cache_valid` flag is `True` has a `_schema_cache` entry equal to what
`_build_schema_cache` would produce from the current `_tools`.  It holds for
the fresh registry and is preserved by every operation. -/
def Registry2.Coherent (r : Registry2) : Prop :=
  ∀ p : String, (alGet p r.cacheValid).getD false = true →
    alGet p r.schemaCache = some (buildSchemaCache r.tools p)

/-! ## The append-based registry (`core/tooling.py`, class `ToolRegistry`) -/

/-- State of the `core/tooling.py` registry (the one `app.py` instantiates):
`_tools` plus the three ever-growing `_tool_schemas` lists. -/
structure Registry1 where
  tools : List (String × ToolFunc)
  openaiSchemas : List OpenAIToolDict
  anthropicSchemas : List AnthToolDict
  genericSchemas : List GenToolDict
deriving DecidableEq, Repr

/-- `ToolRegistry()` of `core/tooling.py`. -/
def Registry1.empty : Registry1 := ⟨[], [], [], []⟩

/-- `register` of `core/tooling.py`: inserts/overwrites in `_tools` but
unconditionally appends to each `_tool_schemas` list whose attribute exists —
even when `name` is already registered. -/
def Registry1.register (r : Registry1) (name : String) (f : ToolFunc) :
    Except String Registry1 :=
  match f.genTool with
  | none => .error ("Function " ++ name ++ " does not have a 'tool' attribute")
  | some g =>
    .ok { tools := alSet name f r.tools,
          openaiSchemas := r.openaiSchemas ++
            (match f.openaiTool with | some s => [s] | none => []),
          anthropicSchemas := r.anthropicSchemas ++
            (match f.anthropicTool with | some s => [s] | none => []),
          genericSchemas := r.genericSchemas ++ [g] }

/-- `get_schemas` of `core/tooling.py`:
`self._tool_schemas.get(provider, self._tool_schemas["generic"])`. -/
def Registry1.get_schemas (r : Registry1) (provider : String) : List ProviderSchema :=
  if provider == "openai" then r.openaiSchemas.map .openai
  else if provider == "anthropic" then r.anthropicSchemas.map .anthropic
  else r.genericSchemas.map .generic

/-! ## `prepare_tools_for_api` (`core/llm/tool_handling.py` lines 15-54)

The tool dicts handed to this function are the very `func.openai_tool`
objects held by the registered functions and by any registry schema list, so
Python-level mutation is visible through every alias.  We model this with an
explicit heap: addresses (`Nat`) map to tool dicts, and every holder of a
schema keeps an address, not a value. -/

/-- A heap of tool-schema dicts. -/
def ToolHeap : Type := Nat → OpenAIToolDict

/-- The in-place assignment `tool["function"]["name"] = tool['name']`. -/
def setFnName (d : OpenAIToolDict) : OpenAIToolDict :=
  { d with function := { d.function with nameField := some d.name } }

/-- One iteration of the `'completions'` loop: a `type == "function"` dict is
mutated in place and its reference appended to the formatted list; any other
dict is skipped untouched. -/
def prepCompletionsStep (acc : ToolHeap × List Nat) (a : Nat) : ToolHeap × List Nat :=
  let h := acc.1
  if (h a).type == "function" then
    ((fun x => if x = a then setFnName (h a) else h x), acc.2 ++ [a])
  else acc

/-- `{"name": ..., "description": ..., "input_schema": ...}` built by the
`'anthropic'` branch (fresh dicts, no mutation). -/
def anthShapeOf (d : OpenAIToolDict) : AnthToolDict :=
  ⟨d.name, d.function.description, d.function.parameters⟩

/-- The value `prepare_tools_for_api` returns: either references into the
heap or freshly built Anthropic-shaped dicts. -/
inductive PreparedTools where
  | refs (addrs : List Nat)
  | anthropicVals (vals : List AnthToolDict)

/-- `prepare_tools_for_api(tools_list, api_type)` over the heap.  The result
pairs the (possibly mutated) heap with the returned value (`none` = Python
`None`). -/
def prepare_tools_for_api (h : ToolHeap) (tools_list : List Nat) (api_type : String) :
    ToolHeap × Option PreparedTools :=
  if tools_list.isEmpty then (h, none)
  else if api_type == "responses" then (h, some (.refs tools_list))
  else if api_type == "completions" then
    let res := tools_list.foldl prepCompletionsStep (h, [])
    (res.1, if res.2.isEmpty then none else some (.refs res.2))
  else if api_type == "anthropic" then
    let vals := tools_list.map (fun a => anthShapeOf (h a))
    (h, if vals.isEmpty then none else some (.anthropicVals vals))
  else (h, none)

/-! ## The Responses-API adapter (`core/llm/responses_api.py`) -/

/-- An entry of the `input` array sent to the Responses API: either a role
message dict or a `function_call_output` item.  (A `function_call_output`
dict has no `"role"` key, so `msg.get("role")` yields `None` for it.) -/
inductive InputItem where
  | msg (role content : String)
  | funcOutput (call_id output : String)
deriving DecidableEq, Repr

/-- `user_input : Union[str, List[...]]` of `handle_responses_api`. -/
inductive RespInput where
  | str (s : String)
  | list (items : List InputItem)
deriving DecidableEq, Repr

/-- An element of the `tool_outputs` list the loop builds:
`{"id": ..., "output": ...}`. -/
structure ToolOutput where
  id : String
  output : String
deriving DecidableEq, Repr

/-- One item of `response.output` from the Responses API (`name` empty when
the item carries no tool name). -/
structure OutputItem where
  type : String
  name : String
  arguments : String
  call_id : String
deriving DecidableEq, Repr

/-- The provider answer used by `handle_responses_api`. -/
structure ProviderResponse where
  output : List OutputItem
  output_text : String
  input_tokens : Nat
  output_tokens : Nat
  id : String
deriving DecidableEq, Repr

/-- The request parameters `handle_responses_api` assembles (`tools` is kept
abstract as its truthiness, which is all the loop logic reads). -/
structure RespParams where
  model : String
  input : RespInput
  hasTools : Bool
  instructions : Option String
  previous_response_id : Option String
deriving DecidableEq, Repr

/-- The environment of one `handle_responses_api` run: the provider as an
oracle over the call index and the request, the registry predicates, the
`json.loads` oracle and the tool-execution oracle.  `execTool` returns the
already-formatted textual result (`json.dumps` for dicts, `str` otherwise);
its `error` case is the callable raising, carrying `str(e)`. -/
structure RespEnv where
  provider : Nat → RespParams → ProviderResponse
  hasTool : String → Bool
  parseArgs : String → Except String String
  execTool : String → String → Except String String
  isInternal : String → Bool

/-- Modelled from the spec: `extract_tool_info` is imported by
`responses_api.py` from `core/llm/tool_handling.py` but is absent from the
sources; per the spec, pending tool calls are emitted as output items tagged
by type, so the helper is modelled as reading the tool name off an output
item (empty when the item has none). -/
def extract_tool_info_name (item : OutputItem) : String :=
  item.name

/-- The filter of `response.output` (lines 120-124): keep items with a truthy
extracted name, of type `"function_call"`, that are not provider-internal. -/
def isFunctionCallItem (env : RespEnv) (item : OutputItem) : Bool :=
  extract_tool_info_name item != "" && item.type == "function_call" &&
    !(env.isInternal item.type)

/-- Error text for a tool missing from the registry. -/
def notFoundMsg (name : String) : String :=
  "Error: Tool '" ++ name ++ "' not found in registry"

/-- Error text for arguments `json.loads` rejects. -/
def badJsonMsg (name e : String) : String :=
  "Invalid JSON arguments for tool " ++ name ++ ": " ++ e

/-- Error text for a tool callable that raised. -/
def execErrorMsg (name e : String) : String :=
  "Error executing tool " ++ name ++ ": " ++ e

/-- The body of the per-call loop (lines 133-191): every outcome — missing
tool, malformed arguments, raising callable, success — yields a `ToolOutput`
carrying the original `call_id`. -/
def processCall (env : RespEnv) (fc : OutputItem) : ToolOutput :=
  if !(env.hasTool fc.name) then
    { id := fc.call_id, output := notFoundMsg fc.name }
  else
    match env.parseArgs fc.arguments with
    | .error e => { id := fc.call_id, output := badJsonMsg fc.name e }
    | .ok args =>
      match env.execTool fc.name args with
      | .ok r => { id := fc.call_id, output := r }
      | .error e => { id := fc.call_id, output := execErrorMsg fc.name e }

/-- Is an input item a dict with `"role": "system"`? -/
def isSystemItem : InputItem → Bool
  | .msg r _ => r == "system"
  | .funcOutput _ _ => false

/-- The message array a string input is converted to when tool outputs must
be attached. -/
def respInputBase : RespInput → List InputItem
  | .str s => [.msg "user" s]
  | .list items => items

/-- Request assembly of `handle_responses_api` (lines 39-113): `instructions`
is added for a string input whenever truthy, and for an array input only when
additionally no `"role": "system"` dict is present; `previous_response_id` is
added when truthy; a truthy `tool_outputs` kwarg turns the input into a
message array with one appended `function_call_output` item per tool output,
carrying that output's id as `call_id`. -/
def buildRespParams (model : String) (user_input : RespInput)
    (instructions : Option String) (hasTools : Bool) (prev : Option String)
    (tool_outputs : Option (List ToolOutput)) : RespParams :=
  let instrIncluded : Option String :=
    match user_input with
    | .str _ => if optTruthy instructions then instructions else none
    | .list items =>
      if optTruthy instructions && !(items.any isSystemItem) then instructions else none
  let base : RespParams :=
    { model := model, input := user_input, hasTools := hasTools,
      instructions := instrIncluded,
      previous_response_id := if optTruthy prev then prev else none }
  match tool_outputs with
  | none => base
  | some touts =>
    if touts.isEmpty then base
    else
      { base with
        input := .list (touts.foldl
          (fun acc o => acc ++ [InputItem.funcOutput o.id o.output])
          (respInputBase user_input)) }

/-- The canned depth-exceeded response (lines 32-37). -/
def depthCutoffResponse : LLMResponse :=
  { text := "I've reached the maximum number of tool calls I can make for this request. Please provide more specific instructions if needed.",
    input_tokens := 0, output_tokens := 0, response_id := none }

/-- The final-response conversion (lines 216-221). -/
def finalOf (r : ProviderResponse) : LLMResponse :=
  { text := r.output_text, input_tokens := r.input_tokens,
    output_tokens := r.output_tokens, response_id := some r.id }

/-- `handle_responses_api`: the recursive tool-calling loop.  Returns the
list of requests issued (one per provider call, in order) together with the
final `LLMResponse`.  `callIdx` indexes the provider oracle and is the number
of provider calls made before this invocation. -/
def handle_responses_api (env : RespEnv) (model : String) (user_input : RespInput)
    (instructions : Option String) (hasTools : Bool) (prev : Option String)
    (tool_outputs : Option (List ToolOutput))
    (current_tool_call_depth max_tool_call_depth : Nat) (callIdx : Nat) :
    List RespParams × LLMResponse :=
  if current_tool_call_depth > max_tool_call_depth then
    ([], depthCutoffResponse)
  else
    let params := buildRespParams model user_input instructions hasTools prev tool_outputs
    let response := env.provider callIdx params
    let function_calls := response.output.filter (isFunctionCallItem env)
    if h : function_calls.isEmpty = false ∧ current_tool_call_depth < max_tool_call_depth then
      let touts := function_calls.map (processCall env)
      if touts.isEmpty then
        ([params], finalOf response)
      else
        let rest := handle_responses_api env model user_input instructions hasTools
          (some response.id) (some touts)
          (current_tool_call_depth + 1) max_tool_call_depth (callIdx + 1)
        (params :: rest.1, rest.2)
    else
      ([params], finalOf response)
termination_by max_tool_call_depth + 1 - current_tool_call_depth
decreasing_by
  obtain ⟨-, h2⟩ := h
  omega

/-! ## The Anthropic adapter (`core/llm/anthropic.py`) -/

/-- A block of `message.content` in an Anthropic response.  `input` is the
tool-use payload, abstracted as its textual form. -/
structure ContentBlock where
  type : String
  text : String
  name : String
  id : String
  input : String
deriving DecidableEq, Repr

/-- The Anthropic provider answer. -/
structure AnthMessage where
  content : List ContentBlock
  input_tokens : Nat
  output_tokens : Nat
deriving DecidableEq, Repr

/-- `{"tool_call_id": ..., "output": ...}` collected for a processed tool-use
block. -/
structure ToolCallRec where
  tool_call_id : String
  output : String
deriving DecidableEq, Repr

/-- The environment of a `handle_anthropic_api` run: provider oracle over
(call index, tools attached?, message array), with `error` = the API raising,
plus the registry membership test and the tool-execution oracle (returning
the `str(result)` text, `error` = the callable raised). -/
structure AnthEnv where
  provider : Nat → Bool → List ChatMsg → Except String AnthMessage
  hasTool : String → Bool
  execTool : String → String → Except String String

/-- One iteration of the message-preparation loop (lines 38-50): system and
developer messages are extracted into the system prompt (only when
`instructions` was not supplied and the content is truthy), user and
assistant messages pass through, and every other role is forwarded as
`"user"`. -/
def anthMsgStep (instructions : Option String) (acc : List ChatMsg × String)
    (msg : ChatMsg) : List ChatMsg × String :=
  if msg.role == "system" || msg.role == "developer" then
    (acc.1, if msg.content != "" && !(optTruthy instructions) then msg.content else acc.2)
  else if msg.role == "user" || msg.role == "assistant" then
    (acc.1 ++ [⟨msg.role, msg.content, none⟩], acc.2)
  else
    (acc.1 ++ [⟨"user", msg.content, none⟩], acc.2)

/-- Message preparation of `handle_anthropic_api` (lines 26-50): returns the
`anthropic_messages` array and the effective system prompt. -/
def prepAnthMsgs (instructions : Option String) (user_input : ChatInput) :
    List ChatMsg × String :=
  let sys0 := if optTruthy instructions then instructions.getD "" else "You are a helpful assistant."
  match user_input with
  | .str s => ([⟨"user", s, none⟩], sys0)
  | .list msgs => msgs.foldl (anthMsgStep instructions) ([], sys0)

/-- One iteration of the content-block loop (lines 81-105): text blocks are
concatenated; a tool-use block for an unregistered tool is skipped
(`continue`), a raising callable is swallowed by the `except` (nothing is
appended), and only a successful execution appends a `ToolCallRec`. -/
def anthBlockStep (hasTool : String → Bool)
    (exec : String → String → Except String String)
    (acc : String × List ToolCallRec) (b : ContentBlock) : String × List ToolCallRec :=
  if b.type == "text" then (acc.1 ++ b.text, acc.2)
  else if b.type == "tool_use" then
    if !(hasTool b.name) then acc
    else
      match exec b.name b.input with
      | .ok r => (acc.1, acc.2 ++ [⟨b.id, r⟩])
      | .error _ => acc
  else acc

/-- The full content-block loop: final text and collected tool calls. -/
def anthProcessBlocks (hasTool : String → Bool)
    (exec : String → String → Except String String)
    (blocks : List ContentBlock) : String × List ToolCallRec :=
  blocks.foldl (anthBlockStep hasTool exec) ("", [])

/-- The retry path (lines 149-162): only text blocks are read out. -/
def anthTextOnly (m : AnthMessage) : LLMResponse :=
  { text := m.content.foldl (fun t b => if b.type == "text" then t ++ b.text else t) "",
    input_tokens := m.input_tokens, output_tokens := m.output_tokens,
    response_id := none }

/-- The tool-rejection test of the `except` clause (line 144). -/
def toolRelated (e : String) : Bool :=
  strContains e "Extra inputs are not permitted" || strContains e "tool_choice"

/-- Outcome of a fuel-bounded `handle_anthropic_api` run: a returned
response, a propagated error, or `outOfFuel` — the execution is still
recursing after consuming all fuel (the Python function has no depth limit,
so an always-tool-calling provider recurses forever). -/
inductive AnthResult where
  | ok (r : LLMResponse)
  | err (e : String)
  | outOfFuel
deriving DecidableEq, Repr

/-- `handle_anthropic_api`: the recursive tool-calling loop, fuel-bounded.
Returns the outcome and the number of provider calls made.  The recursive
continuation sits inside the `try` block, so an error propagating out of it is
caught by this frame's `except` and, when tool-related, answered by one retry
without tools (using this frame's message array). -/
def handle_anthropic_api (env : AnthEnv) :
    Nat → ChatInput → Option String → Bool → Nat → AnthResult × Nat
  | 0, _, _, _, _ => (.outOfFuel, 0)
  | fuel + 1, user_input, instructions, hasTools, callIdx =>
    let prep := prepAnthMsgs instructions user_input
    let msgs := prep.1
    let sys := prep.2
    let attempt : AnthResult × Nat :=
      match env.provider callIdx hasTools msgs with
      | .error e => (.err e, 1)
      | .ok m =>
        let processed := anthProcessBlocks env.hasTool env.execTool m.content
        if processed.2.isEmpty then
          (.ok { text := processed.1, input_tokens := m.input_tokens,
                 output_tokens := m.output_tokens, response_id := none }, 1)
        else
          let newMsgs := (msgs ++ [⟨"assistant", processed.1, none⟩]) ++
            processed.2.map (fun tc => (⟨"tool", tc.output, some tc.tool_call_id⟩ : ChatMsg))
          let rest := handle_anthropic_api env fuel (.list newMsgs) (some sys) hasTools (callIdx + 1)
          (rest.1, rest.2 + 1)
    match attempt with
    | (.err e, n) =>
      if toolRelated e then
        match env.provider (callIdx + n) false msgs with
        | .ok m2 => (.ok (anthTextOnly m2), n + 1)
        | .error e2 => (.err e2, n + 1)
      else (.err e, n)
    | other => other

/-! ## `AsyncLLMClient._get_openai_response`, Responses path
(`core/llm.py` lines 205-246) -/

/-- The request fields relevant to the claims: whether (and with what value)
`instructions` is sent, and the continuation id. -/
structure OaiRespParams where
  instructionsIncluded : Option String
  previous_response_id : Option String
deriving DecidableEq, Repr

/-- Request assembly of `_get_openai_response` with `use_responses_api=True`:
for a string input `instructions` is always placed in the params; for a
message-array input it is added only when truthy and no `"role": "developer"`
message is present (lines 231-233) — the check is on the developer role, not
the system role. -/
def getOpenaiResponseParams (user_input : ChatInput) (instructions : String)
    (prev : Option String) : OaiRespParams :=
  match user_input with
  | .str _ =>
    { instructionsIncluded := some instructions,
      previous_response_id := if optTruthy prev then prev else none }
  | .list msgs =>
    { instructionsIncluded :=
        if instructions != "" && !(msgs.any (fun m => m.role == "developer")) then
          some instructions
        else none,
      previous_response_id := if optTruthy prev then prev else none }

/-! ## Concrete instances used by counterexamples and witnesses -/

/-- `INTERNAL_TOOL_TYPES` of `core/llm/tooling.py`. -/
def internalToolTypes : List String :=
  ["file_search", "web_search", "web_search_preview", "code_interpreter", "retrieval"]

/-- The `today` tool of `tools/date_and_time.py` as `llm_tool` sees it: no
parameters, a docstring, an `Annotated` return type (returns are not part of
the parameter list). -/
def todayPyFunc : PyFunc :=
  { name := "today", doc := some "Return the current date and time in ISO format.",
    params := [] }

/-- The decorated `today` function. -/
def todayFunc : ToolFunc := llm_tool todayPyFunc

/-- A provider output item that is always a fresh function call. -/
def alwaysToolItem : OutputItem :=
  { type := "function_call", name := "today", arguments := "\x7b\x7d", call_id := "call_7" }

/-- A Responses-API environment whose provider returns a new tool call on
every response; token counts and ids depend on the call index so that the
final answer identifies which provider call produced it. -/
def envAlwaysResp : RespEnv :=
  { provider := fun n _ =>
      { output := [alwaysToolItem], output_text := "text" ++ toString n,
        input_tokens := n + 10, output_tokens := n + 1, id := "resp" ++ toString n },
    hasTool := fun _ => true,
    parseArgs := fun s => .ok s,
    execTool := fun _ _ => .ok "result",
    isInternal := fun t => internalToolTypes.contains t }

/-- An Anthropic content block that is always a fresh tool use. -/
def alwaysToolUseBlock : ContentBlock :=
  { type := "tool_use", text := "", name := "today", id := "toolu_1", input := "\x7b\x7d" }

/-- An Anthropic environment whose provider returns a new tool use on every
response, for a registered tool whose callable succeeds. -/
def envAlwaysAnth : AnthEnv :=
  { provider := fun _ _ _ => .ok { content := [alwaysToolUseBlock], input_tokens := 5, output_tokens := 6 },
    hasTool := fun _ => true,
    execTool := fun _ _ => .ok "res" }

/-- An Anthropic environment whose provider returns a tool use for a tool
that is absent from the registry. -/
def envMissingAnth : AnthEnv :=
  { provider := fun _ _ _ => .ok { content := [{ type := "tool_use", text := "", name := "missing", id := "toolu_9", input := "" }], input_tokens := 5, output_tokens := 6 },
    hasTool := fun _ => false,
    execTool := fun _ _ => .ok "never" }

/-- The provider answers of `envAlwaysResp`, by call index. -/
def fAlways (n : Nat) : ProviderResponse :=
  { output := [alwaysToolItem], output_text := "text" ++ toString n,
    input_tokens := n + 10, output_tokens := n + 1, id := "resp" ++ toString n }

/-- What the message-preparation loop of `handle_anthropic_api` does to one
input message: system and developer messages are dropped from the array (they
only feed the system prompt), user and assistant messages pass through, every
other role is forwarded as `"user"`.  Stated as a function so the loop can be
proved equal to `List.filterMap` of it. -/
def anthForward (m : ChatMsg) : Option ChatMsg :=
  if m.role == "system" || m.role == "developer" then none
  else if m.role == "user" || m.role == "assistant" then some ⟨m.role, m.content, none⟩
  else some ⟨"user", m.content, none⟩

/-- The `properties` entry `llm_tool` derives for one parameter. -/
def propEntryOf (p : PyParam) : PropEntry :=
  ⟨(typeMapGet p.ann.base).getD "string", p.ann.metadata⟩

/-- The plain-text message answering the tool-free retry. -/
def retryMsg : AnthMessage :=
  { content := [{ type := "text", text := "plain answer", name := "", id := "", input := "" }],
    input_tokens := 3, output_tokens := 4 }

/-- An Anthropic provider that rejects the first, tool-carrying request with
a `tool_choice` error and answers the tool-free retry with plain text. -/
def envRetryAnth : AnthEnv :=
  { provider := fun n withTools _ =>
      if n == 0 && withTools then .error "messages.0: tool_choice is not supported here"
      else .ok retryMsg,
    hasTool := fun _ => false,
    execTool := fun _ _ => .ok "" }

/-- An Anthropic provider that rejects the first request for a reason that is
not tool-related. -/
def envFatalAnth : AnthEnv :=
  { provider := fun n _ _ =>
      if n == 0 then .error "rate limited"
      else .ok { content := [], input_tokens := 0, output_tokens := 0 },
    hasTool := fun _ => false,
    execTool := fun _ _ => .ok "" }

/-- `core/tooling.py` registry after `register('today', today)`. -/
def r1A : Registry1 :=
  match Registry1.register Registry1.empty "today" todayFunc with
  | .ok r => r
  | .error _ => Registry1.empty

/-- `core/tooling.py` registry after registering `today` a second time under
the same name. -/
def r1B : Registry1 :=
  match Registry1.register r1A "today" todayFunc with
  | .ok r => r
  | .error _ => r1A

/-- `core/llm/tooling.py` registry after `register('today', today)`. -/
def r2A : Registry2 :=
  match Registry2.register Registry2.empty "today" todayFunc with
  | .ok r => r
  | .error _ => Registry2.empty

/-- `core/llm/tooling.py` registry after re-registering `today`. -/
def r2B : Registry2 :=
  match Registry2.register r2A "today" todayFunc with
  | .ok r => r
  | .error _ => r2A

/-- A described parameter that also has a default value. -/
def cityParam : PyParam :=
  { name := "city", ann := { base := .str, metadata := some "City name" }, hasDefault := true }

/-- An undescribed parameter without a default value. -/
def daysParam : PyParam :=
  { name := "days", ann := { base := .int, metadata := none }, hasDefault := false }

/-- An undescribed parameter with a default value. -/
def unitsParam : PyParam :=
  { name := "units", ann := { base := .str, metadata := none }, hasDefault := true }

/-- A parameter list exercising the three schema-derivation cases. -/
def exampleParams : List PyParam := [cityParam, daysParam, unitsParam]

/-- The `openai_tool` dict of the decorated `today` function, as a concrete
heap cell. -/
def todayOaiDict : OpenAIToolDict :=
  { type := "function", name := "today",
    function := { nameField := none,
                  description := "Return the current date and time in ISO format.",
                  parameters := { properties := [], required := [] } } }

/-- A one-cell heap holding the shared `openai_tool` dict of `today`. -/
def heap0 : ToolHeap := fun _ => todayOaiDict

/-- A Responses-API environment in which only `today` is registered, the
argument text `"bad"` fails JSON parsing, and the `today` callable raises. -/
def envBadToolResp : RespEnv :=
  { provider := fun _ _ => { output := [], output_text := "", input_tokens := 0, output_tokens := 0, id := "r" },
    hasTool := fun n => n == "today",
    parseArgs := fun s => if s == "bad" then .error "Expecting value" else .ok s,
    execTool := fun n _ => if n == "today" then .error "boom" else .ok "ok",
    isInternal := fun t => internalToolTypes.contains t }


theorem respLoop_guard (env : RespEnv) (model : String) (ui : RespInput)
    (instr : Option String) (ht : Bool) (prev : Option String)
    (tos : Option (List ToolOutput)) (cur maxd idx : Nat) (h : cur > maxd) :
    handle_responses_api env model ui instr ht prev tos cur maxd idx =
      ([], depthCutoffResponse) := by
  rw [handle_responses_api]
  simp [h]

theorem respLoop_final (env : RespEnv) (model : String) (ui : RespInput)
    (instr : Option String) (ht : Bool) (prev : Option String)
    (tos : Option (List ToolOutput)) (cur maxd idx : Nat)
    (hle : cur ≤ maxd)
    (hstop : ((env.provider idx (buildRespParams model ui instr ht prev tos)).output.filter
        (isFunctionCallItem env)).isEmpty = true ∨ ¬ cur < maxd) :
    handle_responses_api env model ui instr ht prev tos cur maxd idx =
      ([buildRespParams model ui instr ht prev tos],
       finalOf (env.provider idx (buildRespParams model ui instr ht prev tos))) := by
  rw [handle_responses_api]
  have hng : ¬ cur > maxd := by omega
  rcases hstop with hs | hs
  · simp [hng, hs]
  · simp [hng, hs]

theorem respLoop_recurse (env : RespEnv) (model : String) (ui : RespInput)
    (instr : Option String) (ht : Bool) (prev : Option String)
    (tos : Option (List ToolOutput)) (cur maxd idx : Nat)
    (hlt : cur < maxd)
    (hfc : ((env.provider idx (buildRespParams model ui instr ht prev tos)).output.filter
        (isFunctionCallItem env)).isEmpty = false) :
    handle_responses_api env model ui instr ht prev tos cur maxd idx =
      (buildRespParams model ui instr ht prev tos ::
        (handle_responses_api env model ui instr ht
          (some (env.provider idx (buildRespParams model ui instr ht prev tos)).id)
          (some (((env.provider idx (buildRespParams model ui instr ht prev tos)).output.filter
              (isFunctionCallItem env)).map (processCall env)))
          (cur + 1) maxd (idx + 1)).1,
       (handle_responses_api env model ui instr ht
          (some (env.provider idx (buildRespParams model ui instr ht prev tos)).id)
          (some (((env.provider idx (buildRespParams model ui instr ht prev tos)).output.filter
              (isFunctionCallItem env)).map (processCall env)))
          (cur + 1) maxd (idx + 1)).2) := by
  rw [handle_responses_api]
  have hng : ¬ cur > maxd := by omega
  have htne : ((((env.provider idx (buildRespParams model ui instr ht prev tos)).output.filter
      (isFunctionCallItem env)).map (processCall env))).isEmpty = false := by
    rw [List.isEmpty_eq_false] at hfc ⊢
    simpa using hfc
  simp [hng, hfc, hlt, htne]

theorem respLoop_len_le_aux (env : RespEnv) (model : String) (ui : RespInput)
    (instr : Option String) (ht : Bool) (maxd : Nat) :
    ∀ (n : Nat) (cur : Nat) (prev : Option String) (tos : Option (List ToolOutput)) (idx : Nat),
      maxd + 1 - cur ≤ n →
      (handle_responses_api env model ui instr ht prev tos cur maxd idx).1.length
        ≤ maxd + 1 - cur := by
  intro n
  induction n with
  | zero =>
    intro cur prev tos idx hn
    have hgt : cur > maxd := by omega
    rw [respLoop_guard env model ui instr ht prev tos cur maxd idx hgt]
    simp
  | succ n ih =>
    intro cur prev tos idx hn
    by_cases hgt : cur > maxd
    · rw [respLoop_guard env model ui instr ht prev tos cur maxd idx hgt]
      simp
    · have hle : cur ≤ maxd := by omega
      by_cases hlt : cur < maxd
      · by_cases hfc : ((env.provider idx (buildRespParams model ui instr ht prev tos)).output.filter
            (isFunctionCallItem env)).isEmpty = true
        · rw [respLoop_final env model ui instr ht prev tos cur maxd idx hle (Or.inl hfc)]
          simp
          omega
        · have hfc2 : ((env.provider idx (buildRespParams model ui instr ht prev tos)).output.filter
              (isFunctionCallItem env)).isEmpty = false := by
            cases h : ((env.provider idx (buildRespParams model ui instr ht prev tos)).output.filter
              (isFunctionCallItem env)).isEmpty
            · rfl
            · exact absurd h hfc
          rw [respLoop_recurse env model ui instr ht prev tos cur maxd idx hlt hfc2]
          have hrec := ih (cur + 1)
            (some (env.provider idx (buildRespParams model ui instr ht prev tos)).id)
            (some (((env.provider idx (buildRespParams model ui instr ht prev tos)).output.filter
              (isFunctionCallItem env)).map (processCall env)))
            (idx + 1) (by omega)
          simp only [List.length_cons]
          omega
      · rw [respLoop_final env model ui instr ht prev tos cur maxd idx hle (Or.inr hlt)]
        simp
        omega

theorem respLoop_always_tool (env : RespEnv) (f : Nat → ProviderResponse)
    (hp : ∀ n p, env.provider n p = f n)
    (hfc : ∀ n, ((f n).output.filter (isFunctionCallItem env)).isEmpty = false)
    (model : String) (ui : RespInput) (instr : Option String) (ht : Bool) (maxd : Nat) :
    ∀ (n cur : Nat) (prev : Option String) (tos : Option (List ToolOutput)) (idx : Nat),
      cur ≤ maxd → maxd - cur = n →
      (handle_responses_api env model ui instr ht prev tos cur maxd idx).1.length = n + 1 ∧
      (handle_responses_api env model ui instr ht prev tos cur maxd idx).2 = finalOf (f (idx + n)) := by
  intro n
  induction n with
  | zero =>
    intro cur prev tos idx hle h0
    have hnlt : ¬ cur < maxd := by omega
    rw [respLoop_final env model ui instr ht prev tos cur maxd idx hle (Or.inr hnlt)]
    simp [hp]
  | succ n ih =>
    intro cur prev tos idx hle h0
    have hlt : cur < maxd := by omega
    have hfcc : ((env.provider idx (buildRespParams model ui instr ht prev tos)).output.filter
        (isFunctionCallItem env)).isEmpty = false := by
      rw [hp]; exact hfc idx
    rw [respLoop_recurse env model ui instr ht prev tos cur maxd idx hlt hfcc]
    have hrec := ih (cur + 1)
      (some (env.provider idx (buildRespParams model ui instr ht prev tos)).id)
      (some (((env.provider idx (buildRespParams model ui instr ht prev tos)).output.filter
        (isFunctionCallItem env)).map (processCall env)))
      (idx + 1) (by omega) (by omega)
    constructor
    · simp only [List.length_cons, hrec.1]
    · have : idx + 1 + n = idx + (n + 1) := by omega
      rw [← this]
      exact hrec.2

theorem envAlwaysAnth_provider (n : Nat) (b : Bool) (ms : List ChatMsg) :
    envAlwaysAnth.provider n b ms =
      .ok { content := [alwaysToolUseBlock], input_tokens := 5, output_tokens := 6 } := rfl

theorem envAlwaysAnth_processed :
    anthProcessBlocks envAlwaysAnth.hasTool envAlwaysAnth.execTool [alwaysToolUseBlock] =
      ("", [{ tool_call_id := "toolu_1", output := "res" }]) := rfl

theorem anthLoop_always_tool :
    ∀ (fuel : Nat) (ui : ChatInput) (instr : Option String) (htools : Bool) (idx : Nat),
      handle_anthropic_api envAlwaysAnth fuel ui instr htools idx = (.outOfFuel, fuel) := by
  intro fuel
  induction fuel with
  | zero => intro ui instr htools idx; rfl
  | succ fuel ih =>
    intro ui instr htools idx
    rw [handle_anthropic_api]
    simp [envAlwaysAnth_provider, envAlwaysAnth_processed, ih]

/-- C1 (corrected).  The depth bound holds for the stateful-responses adapter:
`handle_responses_api` started at depth 0 makes at most `max_tool_call_depth + 1`
provider calls for every environment, input and depth limit.  It fails for the
alternate-vendor adapter: `handle_anthropic_api` has no depth parameter at all,
and against a provider that returns a new tool use on every response it makes
one provider call per unit of fuel and is still recursing when the fuel runs
out — its provider-call count is unbounded. -/
theorem C1_depth_bound_responses_only :
    (∀ (env : RespEnv) (model : String) (ui : RespInput) (instr : Option String)
       (ht : Bool) (prev : Option String) (tos : Option (List ToolOutput)) (maxd idx : Nat),
       (handle_responses_api env model ui instr ht prev tos 0 maxd idx).1.length ≤ maxd + 1) ∧
    (∀ (fuel : Nat) (ui : ChatInput) (instr : Option String) (htools : Bool) (idx : Nat),
       handle_anthropic_api envAlwaysAnth fuel ui instr htools idx = (.outOfFuel, fuel)) := by
  constructor
  · intro env model ui instr ht prev tos maxd idx
    have h := respLoop_len_le_aux env model ui instr ht maxd (maxd + 1) 0 prev tos idx (by omega)
    simpa using h
  · exact anthLoop_always_tool

/-- C1 counterexample.  Against the always-tool-calling provider the Anthropic
loop has already made 6 provider calls — more than `maxToolDepth + 1 = 4` — and
is still recursing, refuting the claimed bound for that adapter. -/
theorem C1_counterexample :
    handle_anthropic_api envAlwaysAnth 6 (.str "What day is today?") none true 0 =
      (.outOfFuel, 6) ∧ 3 + 1 < 6 := by
  constructor
  · rfl
  · decide

/-- C2 (corrected).  With depth limit 3 and a provider returning a new tool
call on every response, the loop makes exactly 4 provider calls; but the final
returned response is the fourth provider response converted as-is (its own
text, token counts and id), not the depth-exceeded cutoff.  The canned cutoff
response with zero token counts is returned (without any provider call) only
when the handler is entered with the depth counter already above the maximum. -/
theorem C2_exactly_four_calls :
    (∀ (env : RespEnv) (f : Nat → ProviderResponse),
       (∀ n p, env.provider n p = f n) →
       (∀ n, ((f n).output.filter (isFunctionCallItem env)).isEmpty = false) →
       ∀ (model : String) (ui : RespInput) (instr : Option String) (ht : Bool)
         (prev : Option String) (tos : Option (List ToolOutput)),
         (handle_responses_api env model ui instr ht prev tos 0 3 0).1.length = 4 ∧
         (handle_responses_api env model ui instr ht prev tos 0 3 0).2 = finalOf (f 3)) ∧
    (∀ (env : RespEnv) (model : String) (ui : RespInput) (instr : Option String)
       (ht : Bool) (prev : Option String) (tos : Option (List ToolOutput)) (cur maxd idx : Nat),
       cur > maxd →
       handle_responses_api env model ui instr ht prev tos cur maxd idx =
         ([], depthCutoffResponse)) := by
  constructor
  · intro env f hp hfc model ui instr ht prev tos
    have h := respLoop_always_tool env f hp hfc model ui instr ht 3 3 0 prev tos 0 (by omega) (by omega)
    simpa using h
  · intro env model ui instr ht prev tos cur maxd idx h
    exact respLoop_guard env model ui instr ht prev tos cur maxd idx h

/-- C2 counterexample.  With depth limit 3 and the concrete always-tool
provider, the final response of the loop carries the fourth provider answer's
token count 4 and is not the zero-token depth-exceeded cutoff response the
claim promises (the call count 4 itself is correct). -/
theorem C2_counterexample :
    (handle_responses_api envAlwaysResp "gpt-4o" (.str "hi") none true none none 0 3 0).2.output_tokens = 4 ∧
    (handle_responses_api envAlwaysResp "gpt-4o" (.str "hi") none true none none 0 3 0).2 ≠ depthCutoffResponse ∧
    (handle_responses_api envAlwaysResp "gpt-4o" (.str "hi") none true none none 0 3 0).1.length = 4 := by
  have h := respLoop_always_tool envAlwaysResp fAlways (fun _ _ => rfl) (fun _ => rfl)
    "gpt-4o" (.str "hi") none true 3 3 0 none none 0 (by omega) (by omega)
  refine ⟨?_, ?_, ?_⟩
  · rw [h.2]; rfl
  · rw [h.2]; decide
  · simpa using h.1

/-- C2 witness: the amended claim instantiated at the concrete always-tool
environment, plus the cutoff equation at depth 4 > 3. -/
theorem C2_witness :
    (handle_responses_api envAlwaysResp "gpt-4o" (.str "What day is today?") none true none none 0 3 0).1.length = 4 ∧
    (handle_responses_api envAlwaysResp "gpt-4o" (.str "What day is today?") none true none none 0 3 0).2 = finalOf (fAlways 3) ∧
    handle_responses_api envAlwaysResp "gpt-4o" (.str "hi") none true none none 4 3 0 = ([], depthCutoffResponse) :=
  ⟨(C2_exactly_four_calls.1 envAlwaysResp fAlways (fun _ _ => rfl) (fun _ => rfl)
      "gpt-4o" (.str "What day is today?") none true none none).1,
   (C2_exactly_four_calls.1 envAlwaysResp fAlways (fun _ _ => rfl) (fun _ => rfl)
      "gpt-4o" (.str "What day is today?") none true none none).2,
   C2_exactly_four_calls.2 envAlwaysResp "gpt-4o" (.str "hi") none true none none 4 3 0 (by omega)⟩

/-- C3 (corrected).  In the stateful-responses adapter every tool-level
failure — missing tool, malformed JSON arguments, raising callable — yields a
`ToolOutput` whose output is the error text, carrying the original call id, so
the turn continues.  In the Anthropic adapter the same failures are instead
silently skipped: the content-block loop appends no result at all for a
missing tool or a raising callable (the turn still continues, but no
error-text result is folded back). -/
theorem C3_tool_failures :
    (∀ (env : RespEnv) (fc : OutputItem),
       (env.hasTool fc.name = false →
         processCall env fc = { id := fc.call_id, output := notFoundMsg fc.name }) ∧
       (∀ e, env.hasTool fc.name = true → env.parseArgs fc.arguments = .error e →
         processCall env fc = { id := fc.call_id, output := badJsonMsg fc.name e }) ∧
       (∀ args e, env.hasTool fc.name = true → env.parseArgs fc.arguments = .ok args →
         env.execTool fc.name args = .error e →
         processCall env fc = { id := fc.call_id, output := execErrorMsg fc.name e })) ∧
    (∀ (ht : String → Bool) (exec : String → String → Except String String)
       (acc : String × List ToolCallRec) (b : ContentBlock),
       (b.type = "tool_use" → ht b.name = false → anthBlockStep ht exec acc b = acc) ∧
       (∀ e, b.type = "tool_use" → ht b.name = true → exec b.name b.input = .error e →
         anthBlockStep ht exec acc b = acc)) := by
  constructor
  · intro env fc
    refine ⟨?_, ?_, ?_⟩
    · intro h
      simp [processCall, h]
    · intro e h hp
      simp [processCall, h, hp]
    · intro args e h hp hx
      simp [processCall, h, hp, hx]
  · intro ht exec acc b
    constructor
    · intro hb h
      simp [anthBlockStep, hb, h]
    · intro e hb h hx
      simp [anthBlockStep, hb, h, hx]

/-- C3 counterexample.  The Anthropic adapter, given a tool use for an
unregistered tool, completes the turn after one provider call with no
continuation and produces no error-text tool result — the collected tool-call
list is empty — contradicting the claim that every tool failure is captured as
an error-text result for that call in every adapter. -/
theorem C3_counterexample :
    handle_anthropic_api envMissingAnth 2 (.str "hi") none true 0 =
      (.ok { text := "", input_tokens := 5, output_tokens := 6, response_id := none }, 1) ∧
    (anthProcessBlocks envMissingAnth.hasTool envMissingAnth.execTool
        [{ type := "tool_use", text := "", name := "missing", id := "toolu_9", input := "" }]).2 = [] := by
  constructor
  · rfl
  · rfl

/-- C3 witness: the three Responses-API failure shapes produce error-text
results with the original ids, and the two Anthropic failure shapes leave the
accumulator untouched. -/
theorem C3_witness :
    processCall envBadToolResp { type := "function_call", name := "missing", arguments := "x", call_id := "c9" } =
      { id := "c9", output := notFoundMsg "missing" } ∧
    processCall envBadToolResp { type := "function_call", name := "today", arguments := "bad", call_id := "c10" } =
      { id := "c10", output := badJsonMsg "today" "Expecting value" } ∧
    processCall envBadToolResp { type := "function_call", name := "today", arguments := "good", call_id := "c11" } =
      { id := "c11", output := execErrorMsg "today" "boom" } ∧
    anthBlockStep (fun _ => false) (fun _ _ => .ok "x") ("", [])
      { type := "tool_use", text := "", name := "missing", id := "b1", input := "" } = ("", []) ∧
    anthBlockStep (fun _ => true) (fun _ _ => .error "boom") ("", [])
      { type := "tool_use", text := "", name := "today", id := "b2", input := "" } = ("", []) := by
  refine ⟨?_, ?_, ?_, ?_, ?_⟩
  · exact ((C3_tool_failures.1 envBadToolResp
      { type := "function_call", name := "missing", arguments := "x", call_id := "c9" }).1 rfl)
  · exact ((C3_tool_failures.1 envBadToolResp
      { type := "function_call", name := "today", arguments := "bad", call_id := "c10" }).2.1
      "Expecting value" rfl rfl)
  · exact ((C3_tool_failures.1 envBadToolResp
      { type := "function_call", name := "today", arguments := "good", call_id := "c11" }).2.2
      "good" "boom" rfl rfl rfl)
  · exact ((C3_tool_failures.2 (fun _ => false) (fun _ _ => .ok "x") ("", [])
      { type := "tool_use", text := "", name := "missing", id := "b1", input := "" }).1 rfl rfl)
  · exact ((C3_tool_failures.2 (fun _ => true) (fun _ _ => .error "boom") ("", [])
      { type := "tool_use", text := "", name := "today", id := "b2", input := "" }).2 "boom" rfl rfl rfl)

theorem foldl_funcOutput_eq (touts : List ToolOutput) :
    ∀ base : List InputItem,
      touts.foldl (fun acc o => acc ++ [InputItem.funcOutput o.id o.output]) base =
        base ++ touts.map (fun o => InputItem.funcOutput o.id o.output) := by
  induction touts with
  | nil => intro base; simp
  | cons t ts ih => intro base; simp [ih]

/-- C4 (confirmed).  The provider-issued call id is echoed back verbatim:
`processCall` always returns a `ToolOutput` whose id is the function call's
`call_id` unchanged, and the continuation request appends, for every tool
output, a `function_call_output` item whose `call_id` is that id, in order;
the Anthropic adapter likewise stores each successful tool execution under the
tool-use block's own id. -/
theorem C4_callId_echoed :
    (∀ (env : RespEnv) (fc : OutputItem), (processCall env fc).id = fc.call_id) ∧
    (∀ (model : String) (ui : RespInput) (instr : Option String) (ht : Bool)
       (prev : Option String) (touts : List ToolOutput), touts ≠ [] →
       (buildRespParams model ui instr ht prev (some touts)).input =
         .list (respInputBase ui ++ touts.map (fun o => InputItem.funcOutput o.id o.output))) ∧
    (∀ (ht : String → Bool) (exec : String → String → Except String String)
       (acc : String × List ToolCallRec) (b : ContentBlock) (r : String),
       b.type = "tool_use" → ht b.name = true → exec b.name b.input = .ok r →
       anthBlockStep ht exec acc b = (acc.1, acc.2 ++ [{ tool_call_id := b.id, output := r }])) := by
  refine ⟨?_, ?_, ?_⟩
  · intro env fc
    unfold processCall
    split
    · rfl
    · split
      · rfl
      · split <;> rfl
  · intro model ui instr ht prev touts hne
    have hie : touts.isEmpty = false := by
      cases touts
      · exact absurd rfl hne
      · rfl
    unfold buildRespParams
    simp [hie, foldl_funcOutput_eq]
  · intro ht exec acc b r hb hht hexec
    simp [anthBlockStep, hb, hht, hexec]

/-- C4 witness: Scenario 3 — a tool call with id `"c1"` leads to a next
request containing a `function_call_output` item with `call_id` `"c1"`. -/
theorem C4_witness :
    (processCall envAlwaysResp { type := "function_call", name := "today", arguments := "x", call_id := "c1" }).id = "c1" ∧
    (buildRespParams "gpt-4o" (.str "What day is today?") (some "You are a helpful assistant.") true
        (some "resp0") (some [{ id := "c1", output := "2025-06-01T08:00:00Z" }])).input =
      .list [.msg "user" "What day is today?", .funcOutput "c1" "2025-06-01T08:00:00Z"] ∧
    anthBlockStep (fun _ => true) (fun _ _ => .ok "2025-06-01T08:00:00Z") ("", [])
      { type := "tool_use", text := "", name := "today", id := "toolu_7", input := "" } =
      ("", [{ tool_call_id := "toolu_7", output := "2025-06-01T08:00:00Z" }]) := by
  refine ⟨?_, ?_, ?_⟩
  · exact C4_callId_echoed.1 envAlwaysResp _
  · have h := C4_callId_echoed.2.1 "gpt-4o" (.str "What day is today?")
      (some "You are a helpful assistant.") true (some "resp0")
      [{ id := "c1", output := "2025-06-01T08:00:00Z" }] (by decide)
    simpa using h
  · exact C4_callId_echoed.2.2 (fun _ => true) (fun _ _ => .ok "2025-06-01T08:00:00Z") ("", [])
      { type := "tool_use", text := "", name := "today", id := "toolu_7", input := "" }
      "2025-06-01T08:00:00Z" rfl rfl rfl

/-- C5 (confirmed).  When the first provider call of `handle_anthropic_api`
raises with a message matching a known tool-rejection phrase (`tool_choice` or
`Extra inputs are not permitted`), the adapter retries exactly once with tools
stripped and returns that retry's result (or propagates the retry's own
error); a rejection matching no phrase is propagated immediately after a
single provider call, with no retry. -/
theorem C5_tool_rejection_retry :
    ∀ (env : AnthEnv) (ui : ChatInput) (instr : Option String) (fuel callIdx : Nat) (e : String),
      env.provider callIdx true (prepAnthMsgs instr ui).1 = .error e →
      ((∀ m2, toolRelated e = true →
          env.provider (callIdx + 1) false (prepAnthMsgs instr ui).1 = .ok m2 →
          handle_anthropic_api env (fuel + 1) ui instr true callIdx = (.ok (anthTextOnly m2), 2)) ∧
       (∀ e2, toolRelated e = true →
          env.provider (callIdx + 1) false (prepAnthMsgs instr ui).1 = .error e2 →
          handle_anthropic_api env (fuel + 1) ui instr true callIdx = (.err e2, 2)) ∧
       (toolRelated e = false →
          handle_anthropic_api env (fuel + 1) ui instr true callIdx = (.err e, 1))) := by
  intro env ui instr fuel callIdx e hp
  refine ⟨?_, ?_, ?_⟩
  · intro m2 htr hp2
    rw [handle_anthropic_api]
    simp [hp, htr, hp2]
  · intro e2 htr hp2
    rw [handle_anthropic_api]
    simp [hp, htr, hp2]
  · intro htr
    rw [handle_anthropic_api]
    simp [hp, htr]

/-- C5 witness: Scenario 4 — a rejection containing `tool_choice` leads to
exactly one tool-free retry whose text answer is returned; a `rate limited`
rejection is propagated after one call. -/
theorem C5_witness :
    handle_anthropic_api envRetryAnth 1 (.str "hello") none true 0 =
      (.ok (anthTextOnly retryMsg), 2) ∧
    handle_anthropic_api envFatalAnth 1 (.str "hello") none true 0 = (.err "rate limited", 1) := by
  constructor
  · exact (C5_tool_rejection_retry envRetryAnth (.str "hello") none 0 0
      "messages.0: tool_choice is not supported here" rfl).1 _ (by decide) rfl
  · exact (C5_tool_rejection_retry envFatalAnth (.str "hello") none 0 0
      "rate limited" rfl).2.2 (by decide)

theorem buildRespParams_instructions (model : String) (ui : RespInput)
    (instr : Option String) (ht : Bool) (prev : Option String)
    (tos : Option (List ToolOutput)) :
    (buildRespParams model ui instr ht prev tos).instructions =
      (match ui with
       | .str _ => if optTruthy instr then instr else none
       | .list items => if optTruthy instr && !(items.any isSystemItem) then instr else none) := by
  unfold buildRespParams
  cases tos with
  | none => rfl
  | some touts =>
    cases h : touts.isEmpty <;> simp [h]

/-- C6 (corrected).  In `handle_responses_api` the outgoing request carries
`instructions` iff the instructions are truthy and no `"role": "system"` dict
is present in the message array.  In `AsyncLLMClient._get_openai_response`
(Responses path) the suppression check is on the `developer` role instead: the
request carries `instructions` iff they are non-empty and no developer-role
message is present — a system-role message alone does not suppress them. -/
theorem C6_instructions_condition :
    (∀ (model : String) (items : List InputItem) (instr : Option String) (ht : Bool)
       (prev : Option String) (tos : Option (List ToolOutput)),
       ((buildRespParams model (.list items) instr ht prev tos).instructions ≠ none ↔
         (optTruthy instr = true ∧ items.any isSystemItem = false))) ∧
    (∀ (msgs : List ChatMsg) (instr : String) (prev : Option String),
       ((getOpenaiResponseParams (.list msgs) instr prev).instructionsIncluded ≠ none ↔
         (instr ≠ "" ∧ msgs.any (fun m => m.role == "developer") = false))) := by
  constructor
  · intro model items instr ht prev tos
    rw [buildRespParams_instructions]
    cases instr with
    | none => simp [optTruthy]
    | some s =>
      cases hs : (s != "") with
      | false =>
        have : s = "" := by simpa using hs
        simp [optTruthy, this]
      | true =>
        cases ha : items.any isSystemItem with
        | false => simp [optTruthy, hs, ha]
        | true => simp [optTruthy, hs, ha]
  · intro msgs instr prev
    unfold getOpenaiResponseParams
    cases hs : (instr != "") with
    | false =>
      have : instr = "" := by simpa using hs
      simp [this]
    | true =>
      have hne : instr ≠ "" := by simpa using hs
      cases ha : msgs.any (fun m => m.role == "developer") with
      | false => simp [hs, ha, hne]
      | true => simp [hs, ha, hne]

/-- C6 counterexample.  `_get_openai_response` given a message array that
already contains a system-role message still places the instructions in the
outgoing request, because its check looks only for the developer role —
contradicting the claim that instructions are omitted whenever an equivalent
system-role message is present. -/
theorem C6_counterexample :
    (getOpenaiResponseParams (.list [{ role := "system", content := "Be terse.", tool_call_id := none }])
      "You are a helpful assistant." none).instructionsIncluded = some "You are a helpful assistant." := rfl

theorem alGet_alSet_self {α : Type} (k : String) (v : α) (d : List (String × α)) :
    alGet k (alSet k v d) = some v := by
  induction d with
  | nil => simp [alSet, alGet]
  | cons p rest ih =>
    by_cases h : (p.1 == k) = true
    · simp [alSet, alGet, h]
    · simp [alSet, alGet, h, ih]

theorem alGet_alSet_ne {α : Type} (k q : String) (v : α) (d : List (String × α))
    (h : q ≠ k) : alGet q (alSet k v d) = alGet q d := by
  induction d with
  | nil =>
    have hk : (k == q) = false := beq_eq_false_iff_ne.mpr (Ne.symm h)
    simp [alSet, alGet, hk]
  | cons p rest ih =>
    by_cases hp : (p.1 == k) = true
    · have hp1 : p.1 = k := by simpa using hp
      have hk : (k == q) = false := beq_eq_false_iff_ne.mpr (Ne.symm h)
      have hpq : (p.1 == q) = false := by rw [hp1]; exact hk
      simp [alSet, alGet, hp, hk, hpq]
    · simp [alSet, alGet, hp, ih]

theorem length_alSet_of_isSome {α : Type} (k : String) (v : α) (d : List (String × α))
    (h : (alGet k d).isSome) : (alSet k v d).length = d.length := by
  induction d with
  | nil => simp [alGet] at h
  | cons p rest ih =>
    by_cases hp : (p.1 == k) = true
    · simp [alSet, hp]
    · simp only [alGet, hp] at h
      simp only [alSet, hp]
      simp [ih (by simpa using h)]

theorem any_key_iff_isSome {α : Type} (k : String) (d : List (String × α)) :
    d.any (fun p => p.1 == k) = (alGet k d).isSome := by
  induction d with
  | nil => simp [alGet]
  | cons p rest ih =>
    by_cases hp : (p.1 == k) = true
    · simp [alGet, hp]
    · simp [alGet, hp, ih]

theorem alGet_map_false (q : String) (d : List (String × Bool)) :
    alGet q (d.map (fun p => (p.1, false))) = (alGet q d).map (fun _ => false) := by
  induction d with
  | nil => simp [alGet]
  | cons p rest ih =>
    by_cases hp : (p.1 == q) = true
    · simp [alGet, hp]
    · simp [alGet, hp, ih]

theorem register_coherent (r : Registry2) (k : String) (f : ToolFunc) (r2 : Registry2)
    (h : r.register k f = .ok r2) : r2.Coherent := by
  unfold Registry2.register at h
  cases hg : f.genTool with
  | none => rw [hg] at h; exact absurd h (by simp)
  | some g =>
    rw [hg] at h
    injection h with h2
    subst h2
    intro p hp
    dsimp only at hp
    rw [alGet_map_false] at hp
    cases halt : alGet p r.cacheValid with
    | none => rw [halt] at hp; simp at hp
    | some b => rw [halt] at hp; simp at hp

theorem get_schemas_fst (r : Registry2) (p : String) (hc : r.Coherent) :
    (r.get_schemas p).1 = buildSchemaCache r.tools p := by
  unfold Registry2.get_schemas
  by_cases h1 : (alGet p r.schemaCache).isNone = true
  · simp [h1, alGet_alSet_self]
  · have h1f : (alGet p r.schemaCache).isNone = false := by
      cases hh : (alGet p r.schemaCache).isNone
      · rfl
      · exact absurd hh h1
    by_cases h2 : (alGet p r.cacheValid).getD false = true
    · simp only [h1f, Bool.false_eq_true, if_false, h2, Bool.not_true, if_false]
      rw [hc p h2]
      rfl
    · have h2f : (alGet p r.cacheValid).getD false = false := by
        cases hh : (alGet p r.cacheValid).getD false
        · rfl
        · exact absurd hh h2
      simp [h1f, h2f, alGet_alSet_self]

theorem get_schemas_tools (r : Registry2) (p : String) :
    (r.get_schemas p).2.tools = r.tools := by
  unfold Registry2.get_schemas
  by_cases h1 : (alGet p r.schemaCache).isNone = true
  · simp [h1, alGet_alSet_self]
  · have h1f : (alGet p r.schemaCache).isNone = false := by
      cases hh : (alGet p r.schemaCache).isNone
      · rfl
      · exact absurd hh h1
    by_cases h2 : (alGet p r.cacheValid).getD false = true
    · simp [h1f, h2]
    · have h2f : (alGet p r.cacheValid).getD false = false := by
        cases hh : (alGet p r.cacheValid).getD false
        · rfl
        · exact absurd hh h2
      simp [h1f, h2f]

theorem get_schemas_coherent (r : Registry2) (p : String) (hc : r.Coherent) :
    (r.get_schemas p).2.Coherent := by
  unfold Registry2.get_schemas
  by_cases h1 : (alGet p r.schemaCache).isNone = true
  · simp only [h1, if_true, alGet_alSet_self, Option.getD_some, Bool.not_false, if_pos]
    intro q hq
    dsimp only at hq ⊢
    by_cases hqp : q = p
    · subst hqp
      rw [alGet_alSet_self]
    · rw [alGet_alSet_ne _ _ _ _ hqp, alGet_alSet_ne _ _ _ _ hqp] at hq
      rw [alGet_alSet_ne _ _ _ _ hqp, alGet_alSet_ne _ _ _ _ hqp]
      exact hc q hq
  · have h1f : (alGet p r.schemaCache).isNone = false := by
      cases hh : (alGet p r.schemaCache).isNone
      · rfl
      · exact absurd hh h1
    by_cases h2 : (alGet p r.cacheValid).getD false = true
    · simp only [h1f, Bool.false_eq_true, if_false, h2, Bool.not_true, if_false]
      exact hc
    · have h2f : (alGet p r.cacheValid).getD false = false := by
        cases hh : (alGet p r.cacheValid).getD false
        · rfl
        · exact absurd hh h2
      simp only [h1f, Bool.false_eq_true, if_false, h2f, Bool.not_false, if_true]
      intro q hq
      dsimp only at hq ⊢
      by_cases hqp : q = p
      · subst hqp
        rw [alGet_alSet_self]
      · rw [alGet_alSet_ne _ _ _ _ hqp] at hq
        rw [alGet_alSet_ne _ _ _ _ hqp]
        exact hc q hq

/-- C7 (corrected).  For the cache-based registry of `core/llm/tooling.py`
the claim holds: under the cache-coherence invariant (preserved by every
operation), `get_schemas` returns exactly one schema per registered tool — no
tool is ever filtered out, the generic schema serving as fallback — and
re-registering an existing name leaves the tool count, hence the schema count,
unchanged.  It fails for the registry of `core/tooling.py` (the one `app.py`
uses): its `register` appends to every `_tool_schemas` list unconditionally,
so each registration, including a re-registration, grows the openai schema
list by one. -/
theorem C7_schema_counts :
    (∀ (r : Registry2) (p : String), r.Coherent →
       ((r.get_schemas p).1.length = r.tools.length ∧ (r.get_schemas p).2.Coherent)) ∧
    (∀ (r : Registry2) (k : String) (f : ToolFunc) (r2 : Registry2),
       r.has_tool k = true → r.register k f = .ok r2 →
       (r2.tools.length = r.tools.length ∧ r2.Coherent)) ∧
    (∀ (r : Registry1) (k : String) (f : ToolFunc) (r2 : Registry1) (s : OpenAIToolDict),
       f.openaiTool = some s → r.register k f = .ok r2 →
       (r2.get_schemas "openai").length = (r.get_schemas "openai").length + 1) := by
  refine ⟨?_, ?_, ?_⟩
  · intro r p hc
    refine ⟨?_, get_schemas_coherent r p hc⟩
    rw [get_schemas_fst r p hc]
    simp [buildSchemaCache]
  · intro r k f r2 hhas hreg
    refine ⟨?_, register_coherent r k f r2 hreg⟩
    unfold Registry2.register at hreg
    cases hg : f.genTool with
    | none => rw [hg] at hreg; exact absurd hreg (by simp)
    | some g =>
      rw [hg] at hreg
      injection hreg with h2
      subst h2
      dsimp only
      apply length_alSet_of_isSome
      rw [Registry2.has_tool, any_key_iff_isSome] at hhas
      exact hhas
  · intro r k f r2 s hoai hreg
    unfold Registry1.register at hreg
    cases hg : f.genTool with
    | none => rw [hg] at hreg; exact absurd hreg (by simp)
    | some g =>
      rw [hg] at hreg
      injection hreg with h2
      subst h2
      simp [Registry1.get_schemas, hoai]

/-- C7 counterexample.  In the `core/tooling.py` registry, registering
`today` twice under the same name leaves one registered tool but two openai
schemas — re-registering an already-registered name does change the length of
the returned schema list. -/
theorem C7_counterexample :
    (r1A.get_schemas "openai").length = 1 ∧
    (r1B.get_schemas "openai").length = 2 ∧
    r1B.tools.length = 1 := by
  refine ⟨rfl, rfl, rfl⟩

/-- C7 witness: the cache-based registry holding `today` returns one openai
schema, and re-registering `today` keeps its tool count at one. -/
theorem C7_witness :
    (r2A.get_schemas "openai").1.length = 1 ∧ r2B.tools.length = 1 := by
  have hco : r2A.Coherent := by
    intro p hp
    have hnil : r2A.cacheValid = [] := rfl
    rw [hnil] at hp
    simp [alGet] at hp
  constructor
  · rw [(C7_schema_counts.1 r2A "openai" hco).1]
    rfl
  · rw [(C7_schema_counts.2.1 r2A "today" todayFunc r2B (by decide) (by rfl)).1]
    rfl

theorem buildParams_foldl (ps : List PyParam) :
    ∀ acc : ParamsSchema,
      ps.foldl paramStep acc =
        { properties := acc.properties ++ ps.map (fun q => (q.name, propEntryOf q)),
          required := acc.required ++ ps.filterMap
            (fun q => if q.ann.metadata.isSome || !q.hasDefault then some q.name else none) } := by
  induction ps with
  | nil => intro acc; simp
  | cons q qs ih =>
    intro acc
    rw [List.foldl_cons, ih]
    cases hm : q.ann.metadata with
    | some d => simp [paramStep, propEntryOf, hm]
    | none =>
      cases hd : q.hasDefault with
      | true => simp [paramStep, propEntryOf, hm, hd]
      | false => simp [paramStep, propEntryOf, hm, hd]

theorem mem_required_iff (ps : List PyParam) (p : PyParam)
    (hnd : (ps.map PyParam.name).Nodup) (hmem : p ∈ ps) :
    (p.name ∈ (buildParamsSchema ps).required ↔
      (p.ann.metadata.isSome || !p.hasDefault) = true) := by
  rw [buildParamsSchema, buildParams_foldl]
  dsimp only
  rw [List.nil_append, List.mem_filterMap]
  constructor
  · rintro ⟨q, hq, hqe⟩
    by_cases hpred : (q.ann.metadata.isSome || !q.hasDefault) = true
    · rw [if_pos hpred] at hqe
      injection hqe with hname
      have hqp : q = p := List.inj_on_of_nodup_map hnd hq hmem hname
      rw [← hqp]
      exact hpred
    · rw [if_neg hpred] at hqe
      exact absurd hqe (by simp)
  · intro hpred
    exact ⟨p, hmem, by rw [if_pos hpred]⟩

theorem alGet_props (ps : List PyParam) (p : PyParam)
    (hnd : (ps.map PyParam.name).Nodup) (hmem : p ∈ ps) :
    alGet p.name (ps.map (fun q => (q.name, propEntryOf q))) = some (propEntryOf p) := by
  induction ps with
  | nil => cases hmem
  | cons q qs ih =>
    rw [List.map_cons, List.nodup_cons] at hnd
    by_cases hq : (q.name == p.name) = true
    · have hqe : q.name = p.name := by simpa using hq
      have hqp : q = p := by
        cases hmem with
        | head => rfl
        | tail _ hmem2 =>
          exfalso
          exact hnd.1 (hqe ▸ (List.mem_map_of_mem PyParam.name hmem2))
      subst hqp
      simp [alGet, hq]
    · have hmem2 : p ∈ qs := by
        cases hmem with
        | head => exact absurd (by simp) hq
        | tail _ h => exact h
      simp [alGet, hq, ih hnd.2 hmem2]

/-- C8 (confirmed).  In the schema `llm_tool` derives: a parameter without a
metadata description is in `required` iff it has no default value; a parameter
carrying a textual description ends up in `required` unconditionally — default
or not — and its properties entry carries that text as `description`. -/
theorem C8_schema_required :
    ∀ (ps : List PyParam) (p : PyParam),
      (ps.map PyParam.name).Nodup → p ∈ ps →
      ((p.ann.metadata = none →
         (p.name ∈ (buildParamsSchema ps).required ↔ p.hasDefault = false)) ∧
       (∀ d, p.ann.metadata = some d →
         (p.name ∈ (buildParamsSchema ps).required ∧
          alGet p.name (buildParamsSchema ps).properties =
            some { type := (typeMapGet p.ann.base).getD "string", description := some d }))) := by
  intro ps p hnd hmem
  constructor
  · intro hm
    rw [mem_required_iff ps p hnd hmem, hm]
    cases hd : p.hasDefault <;> simp [hd]
  · intro d hm
    constructor
    · rw [mem_required_iff ps p hnd hmem, hm]
      simp
    · have h := alGet_props ps p hnd hmem
      rw [buildParamsSchema, buildParams_foldl]
      dsimp only
      rw [List.nil_append, h]
      simp [propEntryOf, hm]

/-- C8 witness: `city` (described, with default) is required and carries its
description; `days` (no default) is required; `units` (default, no
description) is not. -/
theorem C8_witness :
    ("city" ∈ (buildParamsSchema exampleParams).required ∧
     alGet "city" (buildParamsSchema exampleParams).properties =
       some { type := "string", description := some "City name" }) ∧
    ("days" ∈ (buildParamsSchema exampleParams).required) ∧
    ¬ ("units" ∈ (buildParamsSchema exampleParams).required) := by
  have hnd : (exampleParams.map PyParam.name).Nodup := by decide
  refine ⟨⟨?_, ?_⟩, ?_, ?_⟩
  · exact ((C8_schema_required exampleParams cityParam hnd (by decide)).2 "City name" rfl).1
  · exact ((C8_schema_required exampleParams cityParam hnd (by decide)).2 "City name" rfl).2
  · exact (C8_schema_required exampleParams daysParam hnd (by decide)).1 rfl |>.mpr rfl
  · intro hm
    have h := (C8_schema_required exampleParams unitsParam hnd (by decide)).1 rfl |>.mp hm
    exact absurd h (by decide)

theorem prepStep_pos (h : ToolHeap) (fs : List Nat) (b : Nat)
    (hb : ((h b).type == "function") = true) :
    prepCompletionsStep (h, fs) b =
      ((fun x => if x = b then setFnName (h b) else h x), fs ++ [b]) := by
  simp [prepCompletionsStep, hb]

theorem prepStep_neg (h : ToolHeap) (fs : List Nat) (b : Nat)
    (hb : ((h b).type == "function") = false) :
    prepCompletionsStep (h, fs) b = (h, fs) := by
  simp [prepCompletionsStep, hb]

theorem prep_foldl_not_mem (addrs : List Nat) :
    ∀ (h : ToolHeap) (fs : List Nat) (a : Nat), a ∉ addrs →
      (addrs.foldl prepCompletionsStep (h, fs)).1 a = h a := by
  induction addrs with
  | nil => intro h fs a _; rfl
  | cons b bs ih =>
    intro h fs a ha
    have hab : a ≠ b := fun he => ha (he ▸ List.mem_cons_self b bs)
    have hbs : a ∉ bs := fun he => ha (List.mem_cons_of_mem b he)
    rw [List.foldl_cons]
    by_cases hb : ((h b).type == "function") = true
    · rw [prepStep_pos h fs b hb, ih _ _ _ hbs]
      simp [hab]
    · rw [prepStep_neg h fs b (by simpa using hb), ih _ _ _ hbs]

theorem prep_foldl_mem_fn (addrs : List Nat) :
    ∀ (h : ToolHeap) (fs : List Nat) (a : Nat), a ∈ addrs → (h a).type = "function" →
      (addrs.foldl prepCompletionsStep (h, fs)).1 a = setFnName (h a) := by
  induction addrs with
  | nil => intro h fs a ha _; cases ha
  | cons b bs ih =>
    intro h fs a ha hfn
    rw [List.foldl_cons]
    by_cases hab : a = b
    · subst hab
      have hb : ((h a).type == "function") = true := by simp [hfn]
      rw [prepStep_pos h fs a hb]
      by_cases hbs : a ∈ bs
      · rw [ih _ _ _ hbs (by simp [setFnName, hfn])]
        simp [setFnName]
      · rw [prep_foldl_not_mem bs _ _ _ hbs]
        simp
    · have hbs : a ∈ bs := by
        cases ha with
        | head => exact absurd rfl hab
        | tail _ hh => exact hh
      by_cases hb : ((h b).type == "function") = true
      · rw [prepStep_pos h fs b hb]
        rw [ih _ _ _ hbs (by simp [hab, hfn])]
        simp [hab]
      · rw [prepStep_neg h fs b (by simpa using hb)]
        exact ih _ _ _ hbs hfn

/-- C9 (confirmed).  `prepare_tools_for_api(..., 'completions')` mutates its
input in place: for every function-type tool dict reachable from the list, the
heap cell afterwards has `function.name` set to the dict's top-level `name`
(it equals `setFnName` of the old dict), and whenever that key was not already
set to that value the shared dict object — the very one held by the decorated
function and by any registry schema cache — has genuinely changed. -/
theorem C9_completions_mutates :
    ∀ (h : ToolHeap) (addrs : List Nat) (a : Nat),
      a ∈ addrs → (h a).type = "function" →
      ((prepare_tools_for_api h addrs "completions").1 a = setFnName (h a) ∧
       ((prepare_tools_for_api h addrs "completions").1 a).function.nameField = some ((h a).name) ∧
       ((h a).function.nameField ≠ some ((h a).name) →
         (prepare_tools_for_api h addrs "completions").1 a ≠ h a)) := by
  intro h addrs a ha hfn
  have hne : addrs.isEmpty = false := by
    cases addrs
    · cases ha
    · rfl
  have hmain : (prepare_tools_for_api h addrs "completions").1 a = setFnName (h a) := by
    unfold prepare_tools_for_api
    simp only [hne, Bool.false_eq_true, if_false]
    norm_num
    exact prep_foldl_mem_fn addrs h [] a ha hfn
  refine ⟨hmain, ?_, ?_⟩
  · rw [hmain]
    rfl
  · intro hdiff heq
    rw [hmain] at heq
    exact hdiff (congrArg (fun d => d.function.nameField) heq).symm

/-- C9 witness: formatting a one-element tool list mutates the shared
`today` schema dict, whose `function` sub-dict now carries `name: "today"`. -/
theorem C9_witness :
    ((prepare_tools_for_api heap0 [0] "completions").1 0).function.nameField = some "today" ∧
    (prepare_tools_for_api heap0 [0] "completions").1 0 ≠ heap0 0 := by
  have h := C9_completions_mutates heap0 [0] 0 (by decide) rfl
  exact ⟨h.2.1, h.2.2 (by decide)⟩

theorem prepAnth_fold_fst (instr : Option String) (msgs : List ChatMsg) :
    ∀ (acc : List ChatMsg) (sys : String),
      (msgs.foldl (anthMsgStep instr) (acc, sys)).1 = acc ++ msgs.filterMap anthForward := by
  induction msgs with
  | nil => intro acc sys; simp
  | cons m ms ih =>
    intro acc sys
    rw [List.foldl_cons]
    by_cases h1 : (m.role == "system" || m.role == "developer") = true
    · rw [show anthMsgStep instr (acc, sys) m =
          (acc, if m.content != "" && !(optTruthy instr) then m.content else sys) by
        simp [anthMsgStep, h1]]
      rw [ih]
      simp [anthForward, h1]
    · by_cases h2 : (m.role == "user" || m.role == "assistant") = true
      · rw [show anthMsgStep instr (acc, sys) m = (acc ++ [⟨m.role, m.content, none⟩], sys) by
          simp [anthMsgStep, h1, h2]]
        rw [ih]
        simp [anthForward, h1, h2]
      · rw [show anthMsgStep instr (acc, sys) m = (acc ++ [⟨"user", m.content, none⟩], sys) by
          simp [anthMsgStep, h1, h2]]
        rw [ih]
        simp [anthForward, h1, h2]

/-- C10 (confirmed).  The Anthropic message preparation equals a `filterMap`
that drops system and developer messages, passes user and assistant messages
through, and forwards every other role as `"user"`; in particular the
`"tool"`-role messages the adapter appends for tool outputs re-enter the
recursive continuation as user-role messages carrying the tool output text. -/
theorem C10_role_fallback :
    (∀ (instr : Option String) (msgs : List ChatMsg),
       (prepAnthMsgs instr (.list msgs)).1 = msgs.filterMap anthForward) ∧
    (∀ m : ChatMsg,
       m.role ∉ (["system", "developer", "user", "assistant"] : List String) →
       anthForward m = some { role := "user", content := m.content, tool_call_id := none }) ∧
    (∀ (instr : Option String) (msgs : List ChatMsg) (txt : String) (tcs : List ToolCallRec),
       (prepAnthMsgs instr (.list ((msgs ++ [{ role := "assistant", content := txt, tool_call_id := none }]) ++
           tcs.map (fun tc => { role := "tool", content := tc.output, tool_call_id := some tc.tool_call_id })))).1 =
         (msgs.filterMap anthForward ++ [{ role := "assistant", content := txt, tool_call_id := none }]) ++
           tcs.map (fun tc => { role := "user", content := tc.output, tool_call_id := none })) := by
  have hfst : ∀ (instr : Option String) (msgs : List ChatMsg),
      (prepAnthMsgs instr (.list msgs)).1 = msgs.filterMap anthForward := by
    intro instr msgs
    unfold prepAnthMsgs
    rw [prepAnth_fold_fst]
    simp
  refine ⟨hfst, ?_, ?_⟩
  · intro m hm
    simp only [List.mem_cons, List.mem_singleton, not_or] at hm
    obtain ⟨h1, h2, h3, h4, -⟩ := hm
    unfold anthForward
    simp [h1, h2, h3, h4]
  · intro instr msgs txt tcs
    rw [hfst]
    rw [List.filterMap_append, List.filterMap_append, List.filterMap_map]
    have hmap : List.filterMap (anthForward ∘ fun tc =>
        ({ role := "tool", content := tc.output, tool_call_id := some tc.tool_call_id } : ChatMsg)) tcs =
        tcs.map (fun tc => ({ role := "user", content := tc.output, tool_call_id := none } : ChatMsg)) := by
      induction tcs with
      | nil => rfl
      | cons t ts ihh =>
        rw [List.map_cons, List.filterMap_cons]
        rw [show ((anthForward ∘ fun tc => ({ role := "tool", content := tc.output, tool_call_id := some tc.tool_call_id } : ChatMsg)) t) =
            some ({ role := "user", content := t.output, tool_call_id := none } : ChatMsg) from rfl]
        rw [ihh]
    rw [hmap]
    rw [show (List.filterMap anthForward [({ role := "assistant", content := txt, tool_call_id := none } : ChatMsg)]) =
        [({ role := "assistant", content := txt, tool_call_id := none } : ChatMsg)] from rfl]

/-- C10 witness: a `"tool"`-role message is forwarded to the provider with
role `"user"` and the same content. -/
theorem C10_witness :
    anthForward { role := "tool", content := "result text", tool_call_id := some "toolu_1" } =
      some { role := "user", content := "result text", tool_call_id := none } ∧
    (prepAnthMsgs none (.list [{ role := "tool", content := "result text", tool_call_id := some "toolu_1" }])).1 =
      [{ role := "user", content := "result text", tool_call_id := none }] := by
  constructor
  · exact C10_role_fallback.2.1 _ (by decide)
  · rw [C10_role_fallback.1]
    rfl

end ChainlitBlank
